import Mathlib

/-!
Verification of the business-rule core of the BGHI7 forum application:
the paywall access gate, the vote-toggle engine, the demo subscription
toggle, message posting, and the request handlers wrapping them.
The repository ships only the integration tests for these components;
the rule engines themselves are therefore modelled from the
specification (sections 3, 4, 6 and 7 of spec.md), with the tests
fixing the concrete observable behaviour (redirect targets, error
outcomes).
-/

namespace Forum

/-- Modelled from the spec: the `User` entity of `base.models` (absent from
the sources; only its tests are shipped).  Identity with a boolean
`is_paid` subscription flag (spec section 3). -/
structure User where
  id : Nat
  username : String
  email : String
  is_paid : Bool
deriving Repr, DecidableEq

/-- Modelled from the spec: the `Topic` entity of `base.models` — a named
category with a unique slug (spec section 3). -/
structure Topic where
  slug : String
  name : String
deriving Repr, DecidableEq

/-- Modelled from the spec: the `Room` entity of `base.models` — hosted by
one user, tagged with exactly one topic, carrying a participant set of
user ids (spec section 3). -/
structure Room where
  id : Nat
  host : Nat
  topic : Topic
  name : String
  description : String
  participants : List Nat
deriving Repr, DecidableEq

/-- Modelled from the spec: the `Message` entity of `base.models` — belongs
to one room and one authoring user, with a body string (spec section 3). -/
structure Message where
  user : Nat
  room : Nat
  body : String
deriving Repr, DecidableEq

/-- Modelled from the spec: the `PostVote` entity of `base.models` — a
signed vote row keyed by (user, room) (spec section 3). -/
structure PostVote where
  user : Nat
  room : Nat
  value : Int
deriving Repr, DecidableEq

/-- Modelled from the spec: the slug-level visibility rule that both access
paths consult (spec section 4.1: visibility is a pure function of
`(user.is_paid, room.topic.slug)`). -/
def slugVisible (is_paid : Bool) (slug : String) : Bool :=
  slug != "jobs-referrals" || is_paid

/-- Modelled from the spec: `canView(user, room)` of the access gate (spec
section 4.1) — a room is visible iff its topic's slug is not
`jobs-referrals`, or the user's `is_paid` flag is true. -/
def canView (u : User) (r : Room) : Bool :=
  slugVisible u.is_paid r.topic.slug

/-- Modelled from the spec: `filterVisibleRooms(user, allRooms)` of the
access gate (spec section 4.1) — applies the room-level rule to each room
of the input sequence, preserving the original ordering. -/
def filterVisibleRooms (u : User) (allRooms : List Room) : List Room :=
  allRooms.filter (canView u)

/-- Modelled from the spec: the vote direction submitted with a vote
request (spec section 4.2). -/
inductive Direction where
  | up
  | down
deriving Repr, DecidableEq

/-- Modelled from the spec: direction `up` maps to value `+1`, `down` to
`-1` (spec section 4.2). -/
def dirValue : Direction → Int
  | .up => 1
  | .down => -1

/-- Modelled from the spec: the outcome computed by the vote toggle (spec
section 4.2). -/
inductive VoteOutcome where
  | Create (value : Int)
  | Flip (newValue : Int)
  | Delete
deriving Repr, DecidableEq

/-- Modelled from the spec: `applyVote(existingVote, direction)` of the
vote toggle (spec section 4.2): no existing vote creates the mapped
value, an equal existing value deletes (toggle-off), a differing value
flips in place. -/
def applyVote (existingVote : Option Int) (direction : Direction) : VoteOutcome :=
  match existingVote with
  | none => .Create (dirValue direction)
  | some v => if v = dirValue direction then .Delete else .Flip (dirValue direction)

/-- Row predicate: does this vote row belong to the given (user, room)
pair? -/
def voteFor (u r : Nat) (pv : PostVote) : Bool :=
  pv.user == u && pv.room == r

/-- Modelled from the spec: the read step of the read-modify-write vote
cycle — the existing vote value for a (user, room) pair, if any (spec
sections 4.2 and 5). -/
def findVote (votes : List PostVote) (u r : Nat) : Option Int :=
  (votes.find? (voteFor u r)).map (fun pv => pv.value)

/-- Modelled from the spec: the write step persisting a vote outcome for a
(user, room) pair — Create inserts a row, Flip updates the matching row
in place, Delete removes it (spec section 4.2). -/
def persistOutcome (votes : List PostVote) (u r : Nat) : VoteOutcome → List PostVote
  | .Create v => votes ++ [⟨u, r, v⟩]
  | .Flip v => votes.map (fun pv => if voteFor u r pv then { pv with value := v } else pv)
  | .Delete => votes.filter (fun pv => ! voteFor u r pv)

/-- Modelled from the spec: one full vote request — read the existing vote,
compute the outcome with `applyVote`, persist it (spec sections 4.2
and 6). -/
def voteOp (votes : List PostVote) (u r : Nat) (direction : Direction) : List PostVote :=
  persistOutcome votes u r (applyVote (findVote votes u r) direction)

/-- A sequence of vote requests (user, room, direction) run in order. -/
def runVotes (ops : List (Nat × Nat × Direction)) (votes : List PostVote) : List PostVote :=
  ops.foldl (fun vs op => voteOp vs op.1 op.2.1 op.2.2) votes

/-- The vote rows stored for one (user, room) pair. -/
def rowsFor (votes : List PostVote) (u r : Nat) : List PostVote :=
  votes.filter (voteFor u r)

/-- Modelled from the spec: the store invariant of section 3 — at most one
vote row per (user, room) pair, and every stored value is `+1` or `-1`. -/
def VoteInvariant (votes : List PostVote) : Prop :=
  (∀ u r, (rowsFor votes u r).length ≤ 1) ∧
    ∀ pv ∈ votes, pv.value = 1 ∨ pv.value = -1

/-- Modelled from the spec: `subscribe(user)` of the demo subscription
toggle (spec section 4.3) — sets `is_paid = true`, nothing else. -/
def subscribe (u : User) : User :=
  { u with is_paid := true }

/-- Modelled from the spec: `unsubscribe(user)` of the demo subscription
toggle (spec section 4.3) — sets `is_paid = false`, nothing else. -/
def unsubscribe (u : User) : User :=
  { u with is_paid := false }

/-- Modelled from the spec: adding a user to a room's participant set only
if absent (spec section 6, POST message). -/
def addParticipant (ps : List Nat) (u : Nat) : List Nat :=
  if u ∈ ps then ps else ps ++ [u]

/-- Modelled from the spec: the POST-message handler core (spec section 6)
— appends a `Message` row and adds the author to the room's participants
if absent. -/
def postMessage (r : Room) (msgs : List Message) (u : Nat) (body : String) :
    Room × List Message :=
  ({ r with participants := addParticipant r.participants u },
    msgs ++ [⟨u, r.id, body⟩])

/-- Modelled from the spec: the abstract error taxonomy of section 7 that
the API endpoints surface; `AuthenticationRequired` and `AccessDenied`
are distinct outcomes, never collapsed. -/
inductive ApiError where
  | AuthenticationRequired
  | AccessDenied
deriving Repr, DecidableEq

/-- Modelled from the spec: the API room-listing endpoint (spec section 6)
— requires authentication, then filters through the section 4.1 gate. -/
def apiRooms (auth : Option User) (allRooms : List Room) :
    Except ApiError (List Room) :=
  match auth with
  | none => .error .AuthenticationRequired
  | some u => .ok (filterVisibleRooms u allRooms)

/-- Modelled from the spec: the API room-detail endpoint (spec section 6)
— requires authentication, then consults the section 4.1 gate, surfacing
`AccessDenied` when the gate refuses. -/
def apiRoom (auth : Option User) (r : Room) : Except ApiError Room :=
  match auth with
  | none => .error .AuthenticationRequired
  | some u => if canView u r then .ok r else .error .AccessDenied

/-- Modelled from the spec: a web-layer response — either a redirect to a
location or a successful page showing a sequence of rooms.  The tests fix
the concrete locations: unauthenticated requests redirect to `/login/`,
denied requests redirect to the home page `/`. -/
inductive WebResponse where
  | redirect (location : String)
  | ok (rooms : List Room)
deriving Repr, DecidableEq

/-- The login page location asserted by `test_home_requires_login`. -/
def loginUrl : String := "/login/"

/-- The home page location that denial redirects target. -/
def homeUrl : String := "/"

/-- Modelled from the spec: the web home (room-listing) view (spec
section 6) — requires a logged-in session, honours an optional topic-slug
filter, and consults the single slug-level gate for the filter so that a
gated topic selected by an unpaid user yields the same denial redirect as
direct room access. -/
def homeView (auth : Option User) (topicFilter : Option String)
    (allRooms : List Room) : WebResponse :=
  match auth with
  | none => .redirect loginUrl
  | some u =>
    match topicFilter with
    | none => .ok (filterVisibleRooms u allRooms)
    | some slug =>
      if slugVisible u.is_paid slug then
        .ok (filterVisibleRooms u (allRooms.filter (fun r => r.topic.slug == slug)))
      else
        .redirect homeUrl

/-- Modelled from the spec: the web single-room view (spec section 6) —
requires a logged-in session and consults the section 4.1 gate, denial
being a redirect to the home page. -/
def roomView (auth : Option User) (r : Room) : WebResponse :=
  match auth with
  | none => .redirect loginUrl
  | some u => if canView u r then .ok [r] else .redirect homeUrl

/-! Concrete fixtures mirroring the test setup: one user, the two topics
and the two rooms created in `setUp`. -/

/-- The test user with the subscription flag off. -/
def demoUnpaidUser : User := ⟨1, "user1", "user1@th-deg.de", false⟩

/-- The test user with the subscription flag on. -/
def demoPaidUser : User := ⟨1, "user1", "user1@th-deg.de", true⟩

/-- The gated topic. -/
def jobsTopic : Topic := ⟨"jobs-referrals", "Jobs & Referrals"⟩

/-- An ungated topic. -/
def generalTopic : Topic := ⟨"general", "General"⟩

/-- The room tagged with the gated topic. -/
def jobsRoom : Room := ⟨1, 1, jobsTopic, "Jobs Room", "Jobs", []⟩

/-- The room tagged with the ungated topic. -/
def generalRoom : Room := ⟨2, 1, generalTopic, "General Room", "General", []⟩

/-- C1: Access gate correctness.  `canView u r` is true iff `r`'s topic
slug is not `jobs-referrals` or `u.is_paid` is true; consequently an
unpaid user is denied any jobs-referrals room, a paid user may view every
room, and membership in the filtered listing is governed by the same
predicate. -/
theorem access_gate_correct (u : User) (r : Room) (allRooms : List Room) :
    (canView u r = true ↔ (r.topic.slug ≠ "jobs-referrals" ∨ u.is_paid = true)) ∧
    (u.is_paid = false → r.topic.slug = "jobs-referrals" → canView u r = false) ∧
    (u.is_paid = true → canView u r = true) ∧
    (r ∈ filterVisibleRooms u allRooms ↔ r ∈ allRooms ∧ canView u r = true) := by
  refine ⟨?_, ?_, ?_, ?_⟩
  · simp [canView, slugVisible, Bool.or_eq_true, bne_iff_ne]
  · intro hu hr
    simp [canView, slugVisible, hu, hr]
  · intro hu
    simp [canView, slugVisible, hu]
  · simp [filterVisibleRooms, List.mem_filter]

/-- Witness for C1 at the test fixture: the unpaid user is denied the
jobs-referrals room. -/
theorem access_gate_correct_witness :
    demoUnpaidUser.is_paid = false ∧ jobsRoom.topic.slug = "jobs-referrals" ∧
    canView demoUnpaidUser jobsRoom = false :=
  ⟨rfl, rfl, (access_gate_correct demoUnpaidUser jobsRoom [jobsRoom, generalRoom]).2.1 rfl rfl⟩

/-- C7: the listing is an order-preserving filter — `filterVisibleRooms`
returns a subsequence of the input (hence preserves relative order),
containing exactly the rooms `canView` accepts, with multiplicities of
visible rooms preserved. -/
theorem listing_order_preserving_filter (u : User) (allRooms : List Room) :
    (filterVisibleRooms u allRooms).Sublist allRooms ∧
    (∀ r, r ∈ filterVisibleRooms u allRooms ↔ (r ∈ allRooms ∧ canView u r = true)) ∧
    (∀ r, canView u r = true →
      (filterVisibleRooms u allRooms).count r = allRooms.count r) := by
  refine ⟨List.filter_sublist allRooms, ?_, ?_⟩
  · intro r
    simp [filterVisibleRooms, List.mem_filter]
  · intro r hr
    exact List.count_filter hr

/-- Witness for C7 at the test fixture: the visible `generalRoom` keeps
its multiplicity through the filter. -/
theorem listing_order_preserving_filter_witness :
    canView demoUnpaidUser generalRoom = true ∧
    (filterVisibleRooms demoUnpaidUser [jobsRoom, generalRoom]).count generalRoom =
      ([jobsRoom, generalRoom] : List Room).count generalRoom :=
  ⟨by decide,
    (listing_order_preserving_filter demoUnpaidUser [jobsRoom, generalRoom]).2.2
      generalRoom (by decide)⟩

/-- C8: subscription toggle semantics — `subscribe` sets `is_paid` to
true, `unsubscribe` sets it to false, `subscribe` is idempotent (a no-op
on an already-paid user), and neither operation touches any field other
than `is_paid`. -/
theorem subscription_toggle_semantics (u : User) :
    (subscribe u).is_paid = true ∧
    (unsubscribe u).is_paid = false ∧
    subscribe (subscribe u) = subscribe u ∧
    (u.is_paid = true → subscribe u = u) ∧
    (subscribe u).id = u.id ∧ (subscribe u).username = u.username ∧
    (subscribe u).email = u.email ∧
    (unsubscribe u).id = u.id ∧ (unsubscribe u).username = u.username ∧
    (unsubscribe u).email = u.email := by
  refine ⟨rfl, rfl, rfl, ?_, rfl, rfl, rfl, rfl, rfl, rfl⟩
  intro hu
  cases u
  simp_all [subscribe]

/-- Witness for C8 at the test fixture: subscribing an already-paid user
is observably a no-op. -/
theorem subscription_toggle_semantics_witness :
    demoPaidUser.is_paid = true ∧ subscribe demoPaidUser = demoPaidUser :=
  ⟨rfl, (subscription_toggle_semantics demoPaidUser).2.2.2.1 rfl⟩

/-- C5: API authentication and error distinguishability — an
unauthenticated listing or detail request fails with
`AuthenticationRequired` rather than producing an anonymous view, the two
error outcomes are distinct values, and an authenticated detail request
only ever yields success or `AccessDenied`. -/
theorem api_auth_error_distinct (allRooms : List Room) (r : Room) :
    apiRooms none allRooms = .error .AuthenticationRequired ∧
    apiRoom none r = .error .AuthenticationRequired ∧
    (decide (ApiError.AuthenticationRequired = ApiError.AccessDenied)) = false ∧
    (∀ u, apiRoom (some u) r = .ok r ∨ apiRoom (some u) r = .error .AccessDenied) := by
  refine ⟨rfl, rfl, by decide, ?_⟩
  intro u
  by_cases h : canView u r = true
  · exact Or.inl (by simp [apiRoom, h])
  · exact Or.inr (by simp [apiRoom, h])

/-- C10: the web home listing requires a logged-in session — with no
authenticated user the response is a redirect whose target is the login
page, never a room listing. -/
theorem home_requires_login (topicFilter : Option String) (allRooms : List Room) :
    homeView none topicFilter allRooms = .redirect loginUrl := rfl

/-! Helper lemmas about the vote store. -/

theorem find?_eq_none_of_findVote_none {votes : List PostVote} {u r : Nat}
    (h : findVote votes u r = none) : votes.find? (voteFor u r) = none := by
  unfold findVote at h
  cases hf : votes.find? (voteFor u r) with
  | none => rfl
  | some pv => rw [hf] at h; simp at h

theorem rowsFor_eq_nil_of_findVote_none {votes : List PostVote} {u r : Nat}
    (h : findVote votes u r = none) : rowsFor votes u r = [] := by
  rw [rowsFor, List.filter_eq_nil_iff]
  exact List.find?_eq_none.mp (find?_eq_none_of_findVote_none h)

theorem voteFor_flip (u r u' r' : Nat) (v : Int) (pv : PostVote) :
    voteFor u' r' (if voteFor u r pv then { pv with value := v } else pv) =
      voteFor u' r' pv := by
  cases h : voteFor u r pv with
  | false => simp [h]
  | true => simp [h, voteFor]

theorem voteInvariant_filter (votes : List PostVote) (q : PostVote → Bool)
    (h : VoteInvariant votes) : VoteInvariant (votes.filter q) := by
  obtain ⟨hlen, hval⟩ := h
  constructor
  · intro u' r'
    have hsub : (rowsFor (votes.filter q) u' r').Sublist (rowsFor votes u' r') :=
      (List.filter_sublist votes).filter (voteFor u' r')
    exact le_trans hsub.length_le (hlen u' r')
  · intro pv hpv
    exact hval pv (List.mem_of_mem_filter hpv)

theorem voteInvariant_create (votes : List PostVote) (u r : Nat) (w : Int)
    (hf : findVote votes u r = none) (hw : w = 1 ∨ w = -1)
    (h : VoteInvariant votes) : VoteInvariant (votes ++ [⟨u, r, w⟩]) := by
  obtain ⟨hlen, hval⟩ := h
  constructor
  · intro u' r'
    rw [rowsFor, List.filter_append]
    by_cases hp : voteFor u' r' ⟨u, r, w⟩
    · obtain ⟨rfl, rfl⟩ : u = u' ∧ r = r' := by simpa [voteFor] using hp
      have hnil := rowsFor_eq_nil_of_findVote_none hf
      rw [rowsFor] at hnil
      rw [hnil]
      simp [List.filter, hp]
    · have hone : List.filter (voteFor u' r') [⟨u, r, w⟩] = [] := by
        simp [List.filter, hp]
      rw [hone, List.append_nil]
      exact hlen u' r'
  · intro pv hpv
    rcases List.mem_append.mp hpv with h1 | h1
    · exact hval pv h1
    · have hpv' : pv = ⟨u, r, w⟩ := by simpa using h1
      rw [hpv']
      exact hw

theorem voteInvariant_flip (votes : List PostVote) (u r : Nat) (w : Int)
    (hw : w = 1 ∨ w = -1) (h : VoteInvariant votes) :
    VoteInvariant (persistOutcome votes u r (.Flip w)) := by
  obtain ⟨hlen, hval⟩ := h
  constructor
  · intro u' r'
    have hmap : rowsFor (persistOutcome votes u r (.Flip w)) u' r' =
        (rowsFor votes u' r').map
          (fun pv => if voteFor u r pv then { pv with value := w } else pv) := by
      simp only [persistOutcome, rowsFor, List.filter_map]
      congr 1
      apply List.filter_congr
      intro pv _
      exact voteFor_flip u r u' r' w pv
    rw [hmap, List.length_map]
    exact hlen u' r'
  · intro pv hpv
    simp only [persistOutcome] at hpv
    obtain ⟨pv0, hpv0, hfeq⟩ := List.mem_map.mp hpv
    by_cases hm : voteFor u r pv0
    · rw [← hfeq]
      simp only [hm, if_pos]
      exact hw
    · rw [← hfeq]
      simp only [hm]
      simp only [Bool.false_eq_true, if_false]
      exact hval pv0 hpv0

theorem voteOp_preserves_invariant (votes : List PostVote) (u r : Nat) (d : Direction)
    (h : VoteInvariant votes) : VoteInvariant (voteOp votes u r d) := by
  have hd : dirValue d = 1 ∨ dirValue d = -1 := by cases d <;> simp [dirValue]
  unfold voteOp
  cases hf : findVote votes u r with
  | none =>
    simp only [applyVote]
    exact voteInvariant_create votes u r (dirValue d) hf hd h
  | some v =>
    simp only [applyVote]
    by_cases hv : v = dirValue d
    · rw [if_pos hv]
      exact voteInvariant_filter votes _ h
    · rw [if_neg hv]
      exact voteInvariant_flip votes u r (dirValue d) hd h

theorem runVotes_preserves_invariant (ops : List (Nat × Nat × Direction))
    (votes : List PostVote) (h : VoteInvariant votes) :
    VoteInvariant (runVotes ops votes) := by
  induction ops generalizing votes with
  | nil => exact h
  | cons op rest ih =>
    exact ih (voteOp votes op.1 op.2.1 op.2.2)
      (voteOp_preserves_invariant votes op.1 op.2.1 op.2.2 h)

theorem voteInvariant_nil : VoteInvariant [] := by
  constructor
  · intro u r
    simp [rowsFor]
  · intro pv hpv
    simp at hpv

/-- C3: PostVote state invariant — after any sequence of vote operations
starting from the empty store, every (user, room) pair has zero or one
vote rows and every stored value is `+1` or `-1`. -/
theorem postvote_state_invariant (ops : List (Nat × Nat × Direction)) :
    VoteInvariant (runVotes ops []) :=
  runVotes_preserves_invariant ops [] voteInvariant_nil

/-- C2: vote toggle-off round trip — with no existing vote, `applyVote`
creates `+1` on `up`, a second `up` deletes it, and the stored state
after the two operations equals the state before any vote. -/
theorem vote_toggle_roundtrip (votes : List PostVote) (u r : Nat)
    (h : findVote votes u r = none) :
    applyVote none .up = .Create 1 ∧
    applyVote (some 1) .up = .Delete ∧
    voteOp (voteOp votes u r .up) u r .up = votes := by
  refine ⟨rfl, rfl, ?_⟩
  have hall : ∀ pv ∈ votes, ¬ (voteFor u r pv = true) :=
    List.find?_eq_none.mp (find?_eq_none_of_findVote_none h)
  have h1 : voteOp votes u r .up = votes ++ [⟨u, r, 1⟩] := by
    unfold voteOp
    rw [h]
    rfl
  rw [h1]
  have hfind2 : findVote (votes ++ [⟨u, r, 1⟩]) u r = some 1 := by
    unfold findVote
    rw [List.find?_append, find?_eq_none_of_findVote_none h]
    simp [List.find?, voteFor]
  unfold voteOp
  rw [hfind2]
  show (votes ++ [(⟨u, r, 1⟩ : PostVote)]).filter (fun pv => ! voteFor u r pv) = votes
  rw [List.filter_append]
  have hself : votes.filter (fun pv => ! voteFor u r pv) = votes :=
    List.filter_eq_self.mpr (fun a ha => by simp [hall a ha])
  rw [hself]
  simp [List.filter, voteFor]

/-- Witness for C2 at a concrete store: voting `up` twice on an empty
store returns it to empty. -/
theorem vote_toggle_roundtrip_witness :
    findVote [] 1 2 = none ∧ voteOp (voteOp [] 1 2 .up) 1 2 .up = [] :=
  ⟨rfl, (vote_toggle_roundtrip [] 1 2 rfl).2.2⟩

/-- C4: vote flip correctness — when the existing value differs from the
mapped value, `applyVote` yields `Flip` of the mapped value; in
particular `+1` flipped by `down` gives `-1`, a further `down` deletes,
and persisting a flip updates rows in place (the store keeps its
length). -/
theorem vote_flip_correct (v : Int) (d : Direction) (votes : List PostVote) (u r : Nat)
    (h : v ≠ dirValue d) :
    applyVote (some v) d = .Flip (dirValue d) ∧
    applyVote (some 1) .down = .Flip (-1) ∧
    applyVote (some (-1)) .down = .Delete ∧
    (persistOutcome votes u r (.Flip (dirValue d))).length = votes.length := by
  refine ⟨?_, by decide, by decide, ?_⟩
  · simp [applyVote, h]
  · simp [persistOutcome]

/-- Witness for C4 at the concrete flip of the tests: a `+1` vote hit by
`down` flips to `-1`. -/
theorem vote_flip_correct_witness :
    (1 : Int) ≠ dirValue .down ∧ applyVote (some 1) .down = .Flip (-1) :=
  ⟨by decide, (vote_flip_correct 1 .down [] 1 2 (by decide)).1⟩

/-- C6: single-gate equivalence of access paths — for an unpaid user, a
topic filter selecting `jobs-referrals` produces exactly the same denial
outcome (a redirect to the home page) as direct access to a
jobs-referrals room, both paths consulting the same slug-level gate. -/
theorem single_gate_equivalence (u : User) (r : Room) (allRooms : List Room)
    (hu : u.is_paid = false) (hr : r.topic.slug = "jobs-referrals") :
    homeView (some u) (some "jobs-referrals") allRooms = .redirect homeUrl ∧
    roomView (some u) r = .redirect homeUrl ∧
    homeView (some u) (some r.topic.slug) allRooms = roomView (some u) r := by
  have hslug : slugVisible u.is_paid "jobs-referrals" = false := by
    simp [slugVisible, hu]
  refine ⟨?_, ?_, ?_⟩
  · simp [homeView, hslug]
  · simp [roomView, canView, hr, hslug]
  · simp [homeView, roomView, canView, hr, hslug]

/-- Witness for C6 at the test fixture: both paths deny the unpaid user
with the same redirect. -/
theorem single_gate_equivalence_witness :
    demoUnpaidUser.is_paid = false ∧ jobsRoom.topic.slug = "jobs-referrals" ∧
    roomView (some demoUnpaidUser) jobsRoom = .redirect homeUrl :=
  ⟨rfl, rfl,
    (single_gate_equivalence demoUnpaidUser jobsRoom [jobsRoom, generalRoom] rfl rfl).2.1⟩

/-- C9: participant addition is idempotent — posting appends the message
row, and a user whose participant count is at most one ends with count
exactly one, so posting twice still leaves the user in the participant
set exactly once. -/
theorem participant_added_once (r : Room) (msgs : List Message) (u : Nat) (b b' : String)
    (h : r.participants.count u ≤ 1) :
    (postMessage r msgs u b).2 = msgs ++ [⟨u, r.id, b⟩] ∧
    (postMessage r msgs u b).1.participants.count u = 1 ∧
    ((postMessage (postMessage r msgs u b).1 (postMessage r msgs u b).2
      u b').1.participants.count u = 1) := by
  have key : ∀ ps : List Nat, ps.count u ≤ 1 → (addParticipant ps u).count u = 1 := by
    intro ps hps
    by_cases hm : u ∈ ps
    · have hpos : 0 < ps.count u := List.count_pos_iff.mpr hm
      have h1 : ps.count u = 1 := le_antisymm hps hpos
      simp [addParticipant, hm, h1]
    · have h0 : ps.count u = 0 := List.count_eq_zero.mpr hm
      simp [addParticipant, hm, List.count_append, h0]
  have h1 : (postMessage r msgs u b).1.participants.count u = 1 := key _ h
  exact ⟨rfl, h1, key _ (le_of_eq h1)⟩

/-- Witness for C9 at the test fixture: posting "hello" twice to the
general room leaves the user in the participant set exactly once. -/
theorem participant_added_once_witness :
    generalRoom.participants.count 1 ≤ 1 ∧
    ((postMessage (postMessage generalRoom [] 1 "hello").1
      (postMessage generalRoom [] 1 "hello").2 1 "hello").1.participants.count 1 = 1) :=
  ⟨by decide, (participant_added_once generalRoom [] 1 "hello" "hello" (by decide)).2.2⟩

end Forum
